import Mathlib

/-!
Formal model of the data-access layer of a video-sales web application,
translated from its two TypeScript sources:

* `src/services/VideoService.ts` — record normalization (`normalizeVideo`),
  catalog listing with search/sort (`getAllVideos`), single-record fetch
  (`getVideo`), view increment (`incrementViews`), pagination
  (`getVideosWithPagination`) and video file URL resolution
  (`getVideoFileUrl`);
* `src/services/AppwriteSchemaManager.ts` — schema reconciliation for the
  four collections (`ensure*CollectionAttributes`, `initializeSchema`,
  modelled here as `initSchema`).

JavaScript runtime values that the code manipulates dynamically are modelled
by `JSValue`; JavaScript numbers are modelled as `JNum` (a rational or NaN:
the sources only ever use integral and decimal values, never values needing
binary floating-point rounding, and no claim depends on rounding).  The
remote Appwrite backend is modelled as a record of response functions
(`Backend`, `SchemaBackend`); a rejected promise is an `Except.error`.
-/

/-- A JavaScript number: NaN or a rational value. -/
inductive JNum where
  | nan : JNum
  | val : ℚ → JNum
deriving DecidableEq

instance : Inhabited JNum := ⟨JNum.nan⟩

/-- JS addition on numbers (NaN propagates). -/
def JNum.add : JNum → JNum → JNum
  | .val a, .val b => .val (a + b)
  | _, _ => .nan

/-- JS subtraction on numbers (NaN propagates). -/
def JNum.sub : JNum → JNum → JNum
  | .val a, .val b => .val (a - b)
  | _, _ => .nan

/-- JS multiplication on numbers (NaN propagates). -/
def JNum.mul : JNum → JNum → JNum
  | .val a, .val b => .val (a * b)
  | _, _ => .nan

/-- Truncation toward zero of a rational, as JS `%` uses. -/
def ratTrunc (q : ℚ) : ℤ := if 0 ≤ q then ⌊q⌋ else ⌈q⌉

/-- `Math.floor(a / d)` for a number `a` and a nonzero constant `d`
(every use in the source divides by the constant 60). -/
def JNum.floorDiv (a : JNum) (d : ℚ) : JNum :=
  match a with
  | .nan => .nan
  | .val q => .val (⌊q / d⌋ : ℤ)

/-- JS remainder `a % d` (sign follows the dividend; NaN propagates).
Every use in the source has `d = 60`. -/
def JNum.jsRem (a : JNum) (d : ℚ) : JNum :=
  match a with
  | .nan => .nan
  | .val q => .val (q - d * ratTrunc (q / d))

/-- JS comparison `a < d` against a constant; `NaN < d` is false. -/
def JNum.ltB (a : JNum) (d : ℚ) : Bool :=
  match a with
  | .nan => false
  | .val q => decide (q < d)

/-- JS comparison `a <= 0`, used for sort comparators; false on NaN. -/
def JNum.nonPos : JNum → Bool
  | .nan => false
  | .val q => decide (q ≤ 0)

/-- JS truthiness of a number: `0` and `NaN` are falsy. -/
def JNum.truthy : JNum → Bool
  | .nan => false
  | .val q => decide (q ≠ 0)

/-- `Number.prototype.toString` as the source exercises it: the values
formatted by `normalizeVideo` are always integers (floors and remainders of
integers), printed in decimal.  Non-integral rationals (never produced by
the source on the inputs any claim quantifies over) fall back to a
`num/den` rendering, and NaN prints as `"NaN"` exactly as in JS. -/
def JNum.toJsString : JNum → String
  | .nan => "NaN"
  | .val q => if q.den = 1 then toString q.num else toString q.num ++ "/" ++ toString q.den

/-- A JavaScript runtime value as stored in a raw backend document field. -/
inductive JSValue where
  | undef : JSValue
  | null : JSValue
  | num : JNum → JSValue
  | str : String → JSValue
  | bool : Bool → JSValue
deriving DecidableEq

/-- JS truthiness. -/
def JSValue.truthy : JSValue → Bool
  | .undef => false
  | .null => false
  | .num n => n.truthy
  | .str s => s ≠ ""
  | .bool b => b

/-- JS string coercion (`String(x)`), used by `parseFloat` on non-string
arguments. -/
def JSValue.toJsString : JSValue → String
  | .undef => "undefined"
  | .null => "null"
  | .num n => n.toJsString
  | .str s => s
  | .bool true => "true"
  | .bool false => "false"

/-- Whitespace skipped by `parseFloat`. -/
def isWs (c : Char) : Bool := c == ' ' || c == '\t' || c == '\n' || c == '\r'

/-- Decimal value of a digit list (most significant first). -/
def digitsVal (l : List Char) : ℕ := l.foldl (fun a c => a * 10 + (c.toNat - 48)) 0

/-- Model of the JS builtin `parseFloat`: skip leading whitespace, optional
sign, longest prefix `digits[.digits]`; `NaN` when no digit is consumed.
(The exponent form `1e5`, unused by this code base, is omitted.) -/
def jsParseFloat (s : String) : JNum :=
  let l0 := s.data.dropWhile isWs
  let neg : Bool := match l0 with | '-' :: _ => true | _ => false
  let l1 := match l0 with | '-' :: r => r | '+' :: r => r | _ => l0
  let intDigits := l1.takeWhile Char.isDigit
  let rest := l1.drop intDigits.length
  let fracDigits := match rest with
    | '.' :: r => r.takeWhile Char.isDigit
    | _ => []
  if intDigits.isEmpty && fracDigits.isEmpty then .nan
  else
    let mag : ℚ := (digitsVal intDigits : ℚ) + (digitsVal fracDigits : ℚ) / (10 : ℚ) ^ fracDigits.length
    .val (if neg then -mag else mag)

/-- `parseFloat` applied to an arbitrary value (JS coerces it to a string
first). -/
def jsParseFloatV (v : JSValue) : JNum := jsParseFloat v.toJsString

/-- Model of the JS builtin `Number(s)` as exercised by the duration parser:
`Number("") = 0`, an unsigned decimal digit string is its value, anything
else is NaN.  (The duration parser only ever receives the zero-padded digit
groups produced by the duration formatter, or pieces of the fixed string
`"00:00"`.) -/
def jsNumber (s : String) : JNum :=
  match s.data with
  | [] => .val 0
  | l => if l.all Char.isDigit then .val (digitsVal l : ℚ) else .nan

/-- `String.prototype.padStart(2, '0')`. -/
def padStart2 (s : String) : String :=
  if 2 ≤ s.length then s else String.mk (List.replicate (2 - s.length) '0' ++ s.data)

/-- Accumulator loop of `String.prototype.split(sep)`. -/
def splitChAux (sep : Char) : List Char → List Char → List (List Char)
  | [], acc => [acc.reverse]
  | c :: cs, acc =>
    if c = sep then acc.reverse :: splitChAux sep cs [] else splitChAux sep cs (c :: acc)

/-- Model of JS `String.prototype.split` with a single-character separator. -/
def jsSplit (sep : Char) (s : String) : List String :=
  (splitChAux sep s.data []).map String.mk

/-- The duration formatting block of `normalizeVideo`
(`VideoService.ts` lines 34–48): `minutes = Math.floor(t / 60)`,
`seconds = t % 60`, rendered `MM:SS` when `minutes < 60`, else `HH:MM:SS`
with `hours = Math.floor(minutes / 60)`, `remainingMinutes = minutes % 60`,
each component zero-padded with `padStart(2, '0')`. -/
def formatDuration (t : JNum) : String :=
  let minutes := t.floorDiv 60
  let seconds := t.jsRem 60
  if minutes.ltB 60 then
    padStart2 minutes.toJsString ++ ":" ++ padStart2 seconds.toJsString
  else
    let hours := minutes.floorDiv 60
    let remainingMinutes := minutes.jsRem 60
    padStart2 hours.toJsString ++ ":" ++ padStart2 remainingMinutes.toJsString ++ ":"
      ++ padStart2 seconds.toJsString

/-- The duration parser embedded in the `DURATION_DESC` sort comparator
(`VideoService.ts` lines 131–143): split on `':'`, map through `Number`,
2 parts are `MM:SS`, 3 parts are `HH:MM:SS`, any other arity yields 0.
(The `try`/`catch` around it is dead: none of these operations throw.) -/
def getDurationInSeconds (duration : String) : JNum :=
  let parts := (jsSplit ':' duration).map jsNumber
  match parts with
  | [a, b] => JNum.add (JNum.mul a (.val 60)) b
  | [a, b, c] => JNum.add (JNum.add (JNum.mul a (.val 3600)) (JNum.mul b (.val 60))) c
  | _ => .val 0

/-- A raw document of the video collection as returned by the backend.
String-typed attributes (the schema manager declares `title`, `description`,
`video_id`, `thumbnail_id`, `created_at`, `product_link` as string/datetime
attributes) are either absent or a string; the numeric attributes `price`,
`duration`, `views`, whose malformed values the claims discuss, carry an
arbitrary JS value.  The legacy keys `videoFileId` / `thumbnailFileId` may
also be present on a raw document; `normalizeVideo` never reads them. -/
structure RawVideo where
  id : String
  title : Option String
  description : Option String
  price : JSValue
  duration : JSValue
  video_id : Option String
  thumbnail_id : Option String
  thumbnailUrl : Option String
  isPurchased : Option Bool
  created_at : Option String
  views : JSValue
  product_link : Option String
  videoFileId : Option String
  thumbnailFileId : Option String
deriving DecidableEq

/-- The normalized `Video` shape of `VideoService.ts` (interface `Video`). -/
structure Video where
  id : String
  title : String
  description : String
  price : JNum
  duration : String
  videoFileId : Option String
  video_id : Option String
  thumbnailFileId : Option String
  thumbnail_id : Option String
  thumbnailUrl : Option String
  isPurchased : Bool
  createdAt : String
  views : JNum
  product_link : String
deriving DecidableEq

/-- JS `x || dflt` for an optional string field, where the result is used as
a string (absent and `""` are falsy). -/
def jsOrStr (v : Option String) (dflt : String) : String :=
  match v with
  | some s => if s = "" then dflt else s
  | none => dflt

/-- JS `x || null` for an optional string field. -/
def jsOrNullStr (v : Option String) : Option String :=
  match v with
  | some s => if s = "" then none else some s
  | none => none

/-- `normalizeVideo` (`VideoService.ts` lines 33–67).  `now` is the value
the ambient clock would print (`new Date().toISOString()`), made an explicit
parameter of the model. -/
def normalizeVideo (now : String) (v : RawVideo) : Video :=
  let formattedDuration := match v.duration with
    | .num n => formatDuration n
    | _ => "00:00"
  { id := v.id
    title := jsOrStr v.title "Untitled"
    description := jsOrStr v.description ""
    price := match v.price with
      | .num n => n
      | p => jsParseFloatV (if p.truthy then p else .str "0")
    duration := if v.duration.truthy then formattedDuration else "00:00"
    videoFileId := jsOrNullStr v.video_id
    video_id := jsOrNullStr v.video_id
    thumbnailFileId := jsOrNullStr v.thumbnail_id
    thumbnail_id := jsOrNullStr v.thumbnail_id
    thumbnailUrl := jsOrNullStr v.thumbnailUrl
    isPurchased := match v.isPurchased with | some b => b | none => false
    createdAt := jsOrStr v.created_at now
    views := match v.views with | .num n => n | _ => .val 0
    product_link := jsOrStr v.product_link "" }

/-- Sort options of `VideoService.ts` (enum `SortOption`). -/
inductive SortOption where
  | newest : SortOption
  | price_asc : SortOption
  | price_desc : SortOption
  | views_desc : SortOption
  | duration_desc : SortOption
deriving DecidableEq

/-- `x || 0` on a JS number (0 and NaN are falsy, so both map to 0). -/
def jsOrZero (n : JNum) : JNum := if n.truthy then n else .val 0

/-- The comparator passed to `Array.prototype.sort` for each sort option
(`VideoService.ts` lines 116–147).  `dateVal` models the JS builtin
`s => new Date(s).getTime()` (epoch milliseconds, NaN on an unparseable
string); it is kept abstract and universally quantified in every theorem. -/
def sortComparator (dateVal : String → JNum) : SortOption → Video → Video → JNum
  | .newest => fun a b => JNum.sub (dateVal b.createdAt) (dateVal a.createdAt)
  | .price_asc => fun a b => JNum.sub a.price b.price
  | .price_desc => fun a b => JNum.sub b.price a.price
  | .views_desc => fun a b => JNum.sub (jsOrZero b.views) (jsOrZero a.views)
  | .duration_desc => fun a b =>
      JNum.sub (getDurationInSeconds b.duration) (getDurationInSeconds a.duration)

/-- `Array.prototype.sort` with a comparator: modelled as a stable
comparison sort keeping `a` before `b` whenever `comparator a b <= 0`
(the ordering JS specifies for a consistent comparator). -/
def sortVideos (dateVal : String → JNum) (opt : SortOption) (videos : List Video) : List Video :=
  List.insertionSort (fun a b => (sortComparator dateVal opt a b).nonPos = true) videos

/-- Model of JS `String.prototype.trim`: strip leading and trailing
whitespace. -/
def jsTrim (s : String) : String :=
  String.mk (((s.data.dropWhile Char.isWhitespace).reverse.dropWhile Char.isWhitespace).reverse)

/-- Model of JS `String.prototype.toLowerCase` (ASCII case folding, which
covers every string this code base compares). -/
def jsToLower (s : String) : String := String.mk (s.data.map Char.toLower)

/-- Does the list start with the pattern? -/
def leadsWith : List Char → List Char → Bool
  | [], _ => true
  | _ :: _, [] => false
  | p :: ps, c :: cs => p == c && leadsWith ps cs

/-- Does the pattern occur as a contiguous sublist? -/
def hasSubList (pat : List Char) : List Char → Bool
  | [] => pat.isEmpty
  | c :: cs => leadsWith pat (c :: cs) || hasSubList pat cs

/-- JS `String.prototype.includes`. -/
def jsIncludes (s pat : String) : Bool := hasSubList pat.data s.data

/-- The search predicate of `getAllVideos` (lines 86–89):
`video.title.toLowerCase().includes(trimmedQuery) ||
 video.description.toLowerCase().includes(trimmedQuery)`. -/
def matchesQuery (trimmedQuery : String) (v : Video) : Bool :=
  jsIncludes (jsToLower v.title) trimmedQuery || jsIncludes (jsToLower v.description) trimmedQuery

/-- Bucket identifiers (environment-supplied in `node_appwrite.ts`; their
concrete values are opaque tokens to this code). -/
def thumbnailsBucketId : String := "thumbnailsBucketId"

def videosBucketId : String := "videosBucketId"

/-- The remote backend as a record of responses: a rejected promise is an
`Except.error`.  `getFileView bucket fileId` yields the `href` of the file
view URL. -/
structure Backend where
  listDocuments : Except String (List RawVideo)
  getDocument : String → Except String RawVideo
  getFileView : String → String → Except String String
  updateDocument : String → JSValue → Except String Unit

/-- The placeholder thumbnail URL used whenever no thumbnail reference
exists or resolution fails. -/
def placeholderThumbnailUrl : String := "https://via.placeholder.com/300x180?text=Video+Thumbnail"

/-- JS `a || b` on two optional string fields, normalised to `none` when
neither is truthy (the consumers all guard with `if (x)`). -/
def jsFirstTruthyStr (a b : Option String) : Option String :=
  if (jsOrNullStr a).isSome then jsOrNullStr a
  else if (jsOrNullStr b).isSome then jsOrNullStr b
  else none

/-- The thumbnail resolution block shared by `getAllVideos` (lines 93–113)
and `getVideo` (lines 170–186): look up
`video.thumbnailFileId || video.thumbnail_id`; when present, fetch the file
view URL, falling back to the placeholder on failure; when absent, use the
placeholder.  Errors are caught locally and never escape. -/
def attachThumbnail (gfv : String → String → Except String String) (v : Video) : Video :=
  match jsFirstTruthyStr v.thumbnailFileId v.thumbnail_id with
  | some tid =>
    match gfv thumbnailsBucketId tid with
    | .ok url => { v with thumbnailUrl := some url }
    | .error _ => { v with thumbnailUrl := some placeholderThumbnailUrl }
  | none => { v with thumbnailUrl := some placeholderThumbnailUrl }

/-- `getAllVideos` (`VideoService.ts` lines 70–154): list all documents,
normalize, apply the client-side search filter when
`searchQuery && searchQuery.trim() !== ''`, attach thumbnail URLs, and sort.
The outer `catch` re-raises the error it caught, so a listing failure
propagates unchanged. -/
def getAllVideos (b : Backend) (dateVal : String → JNum) (now : String)
    (sortOption : SortOption) (searchQuery : String) : Except String (List Video) :=
  match b.listDocuments with
  | .error e => .error e
  | .ok docs =>
    let videos := docs.map (normalizeVideo now)
    let videos := if searchQuery != "" && jsTrim searchQuery != "" then
        videos.filter (fun v => matchesQuery (jsToLower (jsTrim searchQuery)) v)
      else videos
    let videos := videos.map (attachThumbnail b.getFileView)
    .ok (sortVideos dateVal sortOption videos)

/-- `getVideo` (lines 157–193): fetch one document, normalize, resolve its
thumbnail; any failure of the document fetch is caught and yields `null`. -/
def getVideo (b : Backend) (now : String) (videoId : String) : Except String (Option Video) :=
  match b.getDocument videoId with
  | .error _ => .ok none
  | .ok doc => .ok (some (attachThumbnail b.getFileView (normalizeVideo now doc)))

/-- JS `x + 1` on the raw `views` value (after the `|| 0` guard the value is
truthy or the number 0, but the model is total). -/
def jsAddOne : JSValue → JSValue
  | .num .nan => .num .nan
  | .num (.val q) => .num (.val (q + 1))
  | .str s => .str (s ++ "1")
  | .bool true => .num (.val 2)
  | .bool false => .num (.val 1)
  | .null => .num (.val 1)
  | .undef => .num .nan

/-- `incrementViews` (lines 197–221): read the record, write back
`(views || 0) + 1`; every error is caught and swallowed. -/
def incrementViews (b : Backend) (videoId : String) : Except String Unit :=
  match b.getDocument videoId with
  | .error _ => .ok ()
  | .ok doc =>
    let currentViews := if doc.views.truthy then doc.views else .num (.val 0)
    match b.updateDocument videoId (jsAddOne currentViews) with
    | .error _ => .ok ()
    | .ok _ => .ok ()

/-- `Math.ceil(n / p)` for natural `n` and positive natural `p` (the claims
restrict `perPage` to integers at least 1). -/
def jsCeilDiv (n p : ℕ) : ℕ := (n + p - 1) / p

/-- `getVideosWithPagination` (lines 224–250): compute the full
sorted/filtered list, `totalPages = Math.ceil(length / perPage)`, and the
slice `[(page-1)*perPage, page*perPage)`.  Errors from `getAllVideos`
propagate (the outer catch re-raises). -/
def getVideosWithPagination (b : Backend) (dateVal : String → JNum) (now : String)
    (page perPage : ℕ) (sortOption : SortOption) (searchQuery : String) :
    Except String (List Video × ℕ) :=
  match getAllVideos b dateVal now sortOption searchQuery with
  | .error e => .error e
  | .ok allVideos =>
    let totalPages := jsCeilDiv allVideos.length perPage
    let startIndex := (page - 1) * perPage
    .ok ((allVideos.drop startIndex).take perPage, totalPages)

/-- `getVideoFileUrl` (lines 253–288): fetch the video via `getVideo`,
look up `video.video_id || video.videoFileId`, resolve the file view URL
from the videos bucket; the record missing, no file reference, and
resolution failure all collapse to `null`, and the outer catch returns
`null` as well. -/
def getVideoFileUrl (b : Backend) (now : String) (videoId : String) :
    Except String (Option String) :=
  match getVideo b now videoId with
  | .error _ => .ok none
  | .ok none => .ok none
  | .ok (some video) =>
    match jsFirstTruthyStr video.video_id video.videoFileId with
    | none => .ok none
    | some fid =>
      match b.getFileView videosBucketId fid with
      | .ok url => .ok (some url)
      | .error _ => .ok none

/-- Semantic attribute types of the schema manager's declared field lists. -/
inductive AttrType where
  | string : AttrType
  | integer : AttrType
  | double : AttrType
  | boolean : AttrType
  | datetime : AttrType
  | stringArray : AttrType
deriving DecidableEq

/-- A declared required attribute (`requiredAttributes` entries in
`AppwriteSchemaManager.ts`): key, semantic type, required flag, optional
numeric bounds, optional default. -/
structure AttrSpec where
  key : String
  atype : AttrType
  areq : Bool
  amin : Option ℤ
  amax : Option ℤ
  adefault : Option JSValue
deriving DecidableEq

/-- Collection identifiers (environment-supplied; opaque tokens here). -/
def videoCollectionId : String := "videoCollectionId"

def siteConfigCollectionId : String := "siteConfigCollectionId"

def userCollectionId : String := "userCollectionId"

def sessionCollectionId : String := "sessionCollectionId"

/-- Declared attributes of the video collection
(`AppwriteSchemaManager.ts` lines 38–49). -/
def videoRequiredAttributes : List AttrSpec :=
  [ AttrSpec.mk "title" .string true none none none,
    AttrSpec.mk "description" .string false none none none,
    AttrSpec.mk "price" .double true (some 0) none none,
    AttrSpec.mk "duration" .integer false (some 0) none none,
    AttrSpec.mk "video_id" .string false none none none,
    AttrSpec.mk "thumbnail_id" .string false none none none,
    AttrSpec.mk "created_at" .datetime false none none none,
    AttrSpec.mk "is_active" .boolean false none none (some (.bool true)),
    AttrSpec.mk "views" .integer false (some 0) none (some (.num (.val 0))),
    AttrSpec.mk "product_link" .string false none none none ]

/-- Declared attributes of the site config collection (lines 135–149). -/
def siteConfigRequiredAttributes : List AttrSpec :=
  [ AttrSpec.mk "site_name" .string true none none none,
    AttrSpec.mk "paypal_client_id" .string false none none none,
    AttrSpec.mk "stripe_publishable_key" .string false none none none,
    AttrSpec.mk "stripe_secret_key" .string false none none none,
    AttrSpec.mk "telegram_username" .string false none none none,
    AttrSpec.mk "video_list_title" .string false none none none,
    AttrSpec.mk "crypto" .stringArray false none none none,
    AttrSpec.mk "email_host" .string false none none none,
    AttrSpec.mk "email_port" .string false none none none,
    AttrSpec.mk "email_secure" .boolean false none none none,
    AttrSpec.mk "email_user" .string false none none none,
    AttrSpec.mk "email_pass" .string false none none none,
    AttrSpec.mk "email_from" .string false none none none ]

/-- Declared attributes of the user collection (lines 216–221). -/
def userRequiredAttributes : List AttrSpec :=
  [ AttrSpec.mk "email" .string true none none none,
    AttrSpec.mk "name" .string true none none none,
    AttrSpec.mk "password" .string true none none none,
    AttrSpec.mk "created_at" .datetime false none none none ]

/-- Declared attributes of the session collection (lines 276–283). -/
def sessionRequiredAttributes : List AttrSpec :=
  [ AttrSpec.mk "user_id" .string true none none none,
    AttrSpec.mk "token" .string true none none none,
    AttrSpec.mk "expires_at" .datetime true none none none,
    AttrSpec.mk "created_at" .datetime false none none none,
    AttrSpec.mk "ip_address" .string false none none none,
    AttrSpec.mk "user_agent" .string false none none none ]

/-- The schema side of the backend: `getAttributes collId` models
`databases.getCollection(...).attributes` reported as a list of existing
attribute keys (the source inspects only `existing.key`), and
`createAttribute collId spec` models the five `create*Attribute` primitives
(the source dispatches on `spec.atype`, passing the spec's required flag,
default and bounds; a single capability indexed by the full spec models
them). -/
structure SchemaBackend where
  getAttributes : String → Except String (List String)
  createAttribute : String → AttrSpec → Except String Unit

/-- The per-collection reconciliation loop: for each declared attribute not
present by key, issue a creation call (followed in the source by a fixed
1-second settling delay, irrelevant to the model).  Returns the list of
creation calls issued; a failing creation call is still counted as issued,
and aborts the loop (the surrounding `try`/`catch` catches it). -/
def reconcileAttrs (create : AttrSpec → Except String Unit) (existing : List String) :
    List AttrSpec → List String
  | [] => []
  | a :: rest =>
    if existing.contains a.key then reconcileAttrs create existing rest
    else
      match create a with
      | .ok _ => a.key :: reconcileAttrs create existing rest
      | .error _ => [a.key]

/-- One `ensure*CollectionAttributes` body: fetch the collection's existing
attribute keys and run the reconciliation loop.  The whole body sits in a
`try`/`catch` that logs and swallows every error, so the promise always
resolves (`Except.ok`); the first component is the trace of creation calls
issued. -/
def ensureCollectionAttributes (sb : SchemaBackend) (collId : String)
    (required : List AttrSpec) : List String × Except String Unit :=
  match sb.getAttributes collId with
  | .error _ => ([], .ok ())
  | .ok existing => (reconcileAttrs (sb.createAttribute collId) existing required, .ok ())

/-- `ensureVideoCollectionAttributes` (`AppwriteSchemaManager.ts`
lines 33–125). -/
def ensureVideoCollectionAttributes (sb : SchemaBackend) : List String × Except String Unit :=
  ensureCollectionAttributes sb videoCollectionId videoRequiredAttributes

/-- `ensureSiteConfigCollectionAttributes` (lines 130–206). -/
def ensureSiteConfigCollectionAttributes (sb : SchemaBackend) : List String × Except String Unit :=
  ensureCollectionAttributes sb siteConfigCollectionId siteConfigRequiredAttributes

/-- `ensureUserCollectionAttributes` (lines 211–266). -/
def ensureUserCollectionAttributes (sb : SchemaBackend) : List String × Except String Unit :=
  ensureCollectionAttributes sb userCollectionId userRequiredAttributes

/-- `ensureSessionCollectionAttributes` (lines 271–328). -/
def ensureSessionCollectionAttributes (sb : SchemaBackend) : List String × Except String Unit :=
  ensureCollectionAttributes sb sessionCollectionId sessionRequiredAttributes

/-- `initializeSchema` (lines 12–28): run the four collection
reconciliations (concurrently via `Promise.all`; they touch disjoint
collections, so the trace is their concatenation), and re-raise only if the
aggregate rejects — i.e. if any of the four promises rejects. -/
def initSchema (sb : SchemaBackend) : List String × Except String Unit :=
  let v := ensureVideoCollectionAttributes sb
  let c := ensureSiteConfigCollectionAttributes sb
  let u := ensureUserCollectionAttributes sb
  let s := ensureSessionCollectionAttributes sb
  (v.1 ++ c.1 ++ u.1 ++ s.1,
    match v.2, c.2, u.2, s.2 with
    | .ok _, .ok _, .ok _, .ok _ => .ok ()
    | .error e, _, _, _ => .error e
    | _, .error e, _, _ => .error e
    | _, _, .error e, _ => .error e
    | _, _, _, .error e => .error e)

/-- The digit character of `d` (used to state facts about zero-padded
two-digit groups). -/
def dchar (d : ℕ) : Char := Char.ofNat (48 + d)

/-- The thumbnail contract a returned `Video` satisfies: its
`thumbnailUrl` is a non-empty string, equal to the backend-resolved URL
when a thumbnail reference is present and resolution succeeds, and equal to
the fixed placeholder when the reference is absent or resolution fails. -/
def thumbOk (b : Backend) (v : Video) : Prop :=
  (∃ u, v.thumbnailUrl = some u ∧ u ≠ "") ∧
  match jsFirstTruthyStr v.thumbnailFileId v.thumbnail_id with
  | some tid =>
    match b.getFileView thumbnailsBucketId tid with
    | .ok url => v.thumbnailUrl = some url
    | .error _ => v.thumbnailUrl = some placeholderThumbnailUrl
  | none => v.thumbnailUrl = some placeholderThumbnailUrl

/-- A raw document with every optional field absent. -/
def rawEmpty : RawVideo :=
  RawVideo.mk "v1" none none .undef .undef none none none none none .undef none none none

/-- A raw document whose stored `price` is the non-numeric string `"abc"`. -/
def rawPriceAbc : RawVideo :=
  RawVideo.mk "v1" none none (.str "abc") .undef none none none none none .undef none none none

/-- A raw document with a (truthy) stored `created_at`. -/
def rawWithDate : RawVideo :=
  RawVideo.mk "v1" none none .undef .undef none none none none
    (some "2024-01-01T00:00:00.000Z") .undef none none none

/-- A date-string valuation for concrete instances (`new Date(s).getTime()`
on strings no particular test depends on). -/
def dVW : String → JNum := fun _ => .nan

/-- A backend whose every call fails. -/
def bErr : Backend :=
  Backend.mk (.error "boom") (fun _ => .error "boom") (fun _ _ => .error "boom")
    (fun _ _ => .error "boom")

/-- A backend that knows no documents (single-record fetches fail). -/
def bNF : Backend :=
  Backend.mk (.ok []) (fun _ => .error "not found") (fun _ _ => .error "x") (fun _ _ => .ok ())

/-- A backend serving one bare document, with failing file storage. -/
def bOne : Backend :=
  Backend.mk (.ok []) (fun _ => .ok rawEmpty) (fun _ _ => .error "x") (fun _ _ => .ok ())

/-- The video produced by `getVideo` against `bOne`. -/
def vOne : Video := attachThumbnail bOne.getFileView (normalizeVideo "T" rawEmpty)

/-- A raw document with the given identifier and numeric price. -/
def mkRawP (id : String) (price : ℚ) : RawVideo :=
  RawVideo.mk id none none (.num (.val price)) .undef none none none none none .undef none
    none none

/-- Ten raw documents with distinct prices. -/
def docs10 : List RawVideo :=
  [mkRawP "a" 1, mkRawP "b" 2, mkRawP "c" 3, mkRawP "d" 4, mkRawP "e" 5,
   mkRawP "f" 6, mkRawP "g" 7, mkRawP "h" 8, mkRawP "i" 9, mkRawP "j" 10]

/-- A backend serving the ten documents, with failing file storage. -/
def bW : Backend :=
  Backend.mk (.ok docs10) (fun _ => .error "nf") (fun _ _ => .error "x") (fun _ _ => .ok ())

/-- The full sorted catalog `getAllVideos` returns against `bW`. -/
def vidsW : List Video :=
  match getAllVideos bW dVW "T" SortOption.price_asc "" with
  | .ok l => l
  | .error _ => []

/-- Two raw documents with searchable titles. -/
def catDoc : RawVideo :=
  RawVideo.mk "c1" (some "Cat Video") none .undef .undef none none none none none .undef none
    none none

def dogDoc : RawVideo :=
  RawVideo.mk "d1" (some "Dog Clip") none .undef .undef none none none none none .undef none
    none none

/-- A backend serving the two searchable documents. -/
def bS : Backend :=
  Backend.mk (.ok [catDoc, dogDoc]) (fun _ => .error "nf") (fun _ _ => .error "x")
    (fun _ _ => .ok ())

/-- The list `getAllVideos` returns against `bS` for the query `"CAT"`. -/
def outS : List Video :=
  match getAllVideos bS dVW "T" SortOption.price_asc "CAT" with
  | .ok l => l
  | .error _ => []

/-- All attribute keys declared for the four collections. -/
def allDeclaredKeys : List String :=
  (videoRequiredAttributes ++ siteConfigRequiredAttributes ++ userRequiredAttributes
    ++ sessionRequiredAttributes).map (fun a => a.key)

/-- A schema backend whose collections already carry every declared key. -/
def sbAll : SchemaBackend :=
  SchemaBackend.mk (fun _ => .ok allDeclaredKeys) (fun _ _ => .ok ())

theorem jsFirstTruthyStr_self (x : Option String) :
    jsFirstTruthyStr (jsOrNullStr x) (jsOrNullStr x) = jsOrNullStr x := by
  cases x with
  | none => rfl
  | some s =>
    by_cases h : s = "" <;> simp [jsFirstTruthyStr, jsOrNullStr, h]

/-- C10: normalization feeds both `videoFileId` and `video_id` from the raw
`video_id` field (coerced to `null` when falsy), and both `thumbnailFileId`
and `thumbnail_id` from the raw `thumbnail_id` field; raw fields named
`videoFileId` or `thumbnailFileId` never influence the output, so each
dual-field lookup (`thumbnailFileId || thumbnail_id`,
`video_id || videoFileId`) reads a single underlying raw source field. -/
theorem C10_alias_fields (now : String) (r : RawVideo) :
    (normalizeVideo now r).videoFileId = jsOrNullStr r.video_id ∧
    (normalizeVideo now r).video_id = jsOrNullStr r.video_id ∧
    (normalizeVideo now r).thumbnailFileId = jsOrNullStr r.thumbnail_id ∧
    (normalizeVideo now r).thumbnail_id = jsOrNullStr r.thumbnail_id ∧
    (∀ a b : Option String,
      normalizeVideo now { r with videoFileId := a, thumbnailFileId := b } =
        normalizeVideo now r) ∧
    jsFirstTruthyStr (normalizeVideo now r).thumbnailFileId (normalizeVideo now r).thumbnail_id
      = jsOrNullStr r.thumbnail_id ∧
    jsFirstTruthyStr (normalizeVideo now r).video_id (normalizeVideo now r).videoFileId
      = jsOrNullStr r.video_id :=
  ⟨rfl, rfl, rfl, rfl, fun _ _ => rfl,
    jsFirstTruthyStr_self r.thumbnail_id, jsFirstTruthyStr_self r.video_id⟩

/-- C3 counterexample: normalization reads the ambient clock when
`created_at` is absent, so two runs of `normalizeVideo` on the very same raw
record (here one with no `created_at`) at different clock instants produce
different `VideoView`s — the claim that normalization is deterministic for
every raw record fails. -/
theorem C3_counterexample :
    normalizeVideo "2024-01-01T00:00:00.000Z" rawEmpty ≠
      normalizeVideo "2024-01-02T00:00:00.000Z" rawEmpty := by
  with_unfolding_all decide

/-- C3 amended: normalization is deterministic (independent of the clock
reading) for every raw record whose `created_at` field is present and
truthy; when `created_at` is absent, the output `createdAt` is exactly the
clock reading of that run, so runs at different instants differ in
`createdAt` and in no other way. -/
theorem C3_deterministic (now₁ now₂ : String) (r : RawVideo) :
    ((∃ s, r.created_at = some s ∧ s ≠ "") → normalizeVideo now₁ r = normalizeVideo now₂ r) ∧
    (r.created_at = none → (normalizeVideo now₁ r).createdAt = now₁) ∧
    (normalizeVideo now₁ r = { normalizeVideo now₂ r with
      createdAt := (normalizeVideo now₁ r).createdAt }) := by
  refine ⟨?_, ?_, rfl⟩
  · rintro ⟨s, hs, hne⟩
    simp [normalizeVideo, jsOrStr, hs, hne]
  · intro h
    simp [normalizeVideo, jsOrStr, h]

theorem C3_witness :
    normalizeVideo "2024-01-01T00:00:00.000Z" rawWithDate =
      normalizeVideo "2024-01-02T00:00:00.000Z" rawWithDate :=
  (C3_deterministic "2024-01-01T00:00:00.000Z" "2024-01-02T00:00:00.000Z" rawWithDate).1
    ⟨"2024-01-01T00:00:00.000Z", rfl, by decide⟩

/-- C2 counterexample: a stored `price` that is a non-numeric, non-empty
string is not coerced to 0 — `parseFloat("abc")` is NaN, so the normalized
price is NaN, which is neither 0 nor `≥ 0`. -/
theorem C2_counterexample :
    (normalizeVideo "T" rawPriceAbc).price = JNum.nan ∧ JNum.nan ≠ JNum.val 0 := by
  exact ⟨rfl, by decide⟩

/-- C2 amended: normalization is total (a Lean function on every raw
record) with these defaults — a missing title becomes `"Untitled"`, a
missing description becomes `""`, a price that is falsy and not a number
(absent, null, empty string, false) is coerced to 0, a truthy non-numeric
string price becomes `parseFloat` of it (NaN when it has no numeric
prefix, so `price ≥ 0` is not guaranteed), non-numeric views become 0, and
a non-numeric (in particular missing) duration renders as `"00:00"`. -/
theorem C2_normalization_defaults (now : String) (r : RawVideo) :
    (r.title = none → (normalizeVideo now r).title = "Untitled") ∧
    (r.description = none → (normalizeVideo now r).description = "") ∧
    ((∀ n, r.price ≠ .num n) → r.price.truthy = false →
      (normalizeVideo now r).price = JNum.val 0) ∧
    (∀ s, r.price = .str s → s ≠ "" → (normalizeVideo now r).price = jsParseFloat s) ∧
    ((∀ n, r.views ≠ .num n) → (normalizeVideo now r).views = JNum.val 0) ∧
    (r.views = .undef → (normalizeVideo now r).views = JNum.val 0) ∧
    ((∀ n, r.duration ≠ .num n) → (normalizeVideo now r).duration = "00:00") ∧
    (r.duration = .undef → (normalizeVideo now r).duration = "00:00") := by
  refine ⟨?_, ?_, ?_, ?_, ?_, ?_, ?_, ?_⟩
  · intro h; simp [normalizeVideo, jsOrStr, h]
  · intro h; simp [normalizeVideo, jsOrStr, h]
  · intro hn ht
    cases hp : r.price with
    | num n => exact absurd hp (hn n)
    | undef => simp [normalizeVideo, hp]; with_unfolding_all rfl
    | null => simp [normalizeVideo, hp]; with_unfolding_all rfl
    | str s =>
      rw [hp] at ht
      have hs : s = "" := by
        by_contra hne
        simp [JSValue.truthy, hne] at ht
      subst hs
      simp [normalizeVideo, hp, JSValue.truthy]; with_unfolding_all rfl
    | bool b =>
      rw [hp] at ht
      have hb : b = false := by
        cases b with
        | true => simp [JSValue.truthy] at ht
        | false => rfl
      subst hb
      simp [normalizeVideo, hp, JSValue.truthy]; with_unfolding_all rfl
  · intro s hp hne
    simp [normalizeVideo, hp, JSValue.truthy, hne, jsParseFloatV, JSValue.toJsString]
  · intro hn
    cases hv : r.views with
    | num n => exact absurd hv (hn n)
    | undef => simp [normalizeVideo, hv]
    | null => simp [normalizeVideo, hv]
    | str s => simp [normalizeVideo, hv]
    | bool b => simp [normalizeVideo, hv]
  · intro h; simp [normalizeVideo, h]
  · intro hn
    cases hv : r.duration with
    | num n => exact absurd hv (hn n)
    | undef => simp [normalizeVideo, hv]
    | null => simp [normalizeVideo, hv]
    | str s => simp [normalizeVideo, hv, JSValue.truthy]
    | bool b => cases b <;> simp [normalizeVideo, hv, JSValue.truthy]
  · intro h; simp [normalizeVideo, h]

theorem C2_witness :
    (normalizeVideo "T" rawEmpty).title = "Untitled" ∧
    (normalizeVideo "T" rawEmpty).description = "" ∧
    (normalizeVideo "T" rawEmpty).price = JNum.val 0 ∧
    (normalizeVideo "T" rawEmpty).views = JNum.val 0 ∧
    (normalizeVideo "T" rawEmpty).duration = "00:00" :=
  ⟨(C2_normalization_defaults "T" rawEmpty).1 rfl,
   (C2_normalization_defaults "T" rawEmpty).2.1 rfl,
   (C2_normalization_defaults "T" rawEmpty).2.2.1 (fun _ h => nomatch h) rfl,
   (C2_normalization_defaults "T" rawEmpty).2.2.2.2.2.1 rfl,
   (C2_normalization_defaults "T" rawEmpty).2.2.2.2.2.2.2 rfl⟩

theorem except_match_ok (x : Except String Unit) :
    (match x with | .error _ => (Except.ok () : Except String Unit) | .ok _ => .ok ()) = .ok () := by
  cases x <;> rfl

theorem ensureCollection_resolves (sb : SchemaBackend) (collId : String)
    (required : List AttrSpec) : (ensureCollectionAttributes sb collId required).2 = .ok () := by
  unfold ensureCollectionAttributes
  cases sb.getAttributes collId <;> rfl

/-- C4: an error propagates to the caller iff the operation is the
full-catalog base fetch — `getAllVideos` (and hence
`getVideosWithPagination`) rejects with exactly the error of the underlying
`listDocuments` call, while schema provisioning, `getVideo`,
`incrementViews` and `getVideoFileUrl` catch every error internally and
resolve with a safe default / null / void. -/
theorem C4_error_propagation (b : Backend) (dateVal : String → JNum) (now : String)
    (sortOption : SortOption) (searchQuery : String) (page perPage : ℕ)
    (videoId : String) (sb : SchemaBackend) :
    (∀ e, getAllVideos b dateVal now sortOption searchQuery = .error e ↔
      b.listDocuments = .error e) ∧
    (∀ e, getVideosWithPagination b dateVal now page perPage sortOption searchQuery = .error e ↔
      b.listDocuments = .error e) ∧
    ((initSchema sb).2 = .ok ()) ∧
    (∃ v, getVideo b now videoId = .ok v) ∧
    (incrementViews b videoId = .ok ()) ∧
    (∃ u, getVideoFileUrl b now videoId = .ok u) := by
  refine ⟨?_, ?_, ?_, ?_, ?_, ?_⟩
  · intro e
    cases hl : b.listDocuments <;> simp [getAllVideos, hl]
  · intro e
    cases hl : b.listDocuments <;>
      simp [getVideosWithPagination, getAllVideos, hl]
  · simp [initSchema, ensureVideoCollectionAttributes, ensureSiteConfigCollectionAttributes,
      ensureUserCollectionAttributes, ensureSessionCollectionAttributes,
      ensureCollection_resolves]
  · unfold getVideo
    cases b.getDocument videoId <;> exact ⟨_, rfl⟩
  · unfold incrementViews
    split
    · rfl
    · exact except_match_ok _
  · unfold getVideoFileUrl
    split
    · exact ⟨_, rfl⟩
    · exact ⟨_, rfl⟩
    · split
      · exact ⟨_, rfl⟩
      · split <;> exact ⟨_, rfl⟩

theorem C4_witness :
    getAllVideos bErr dVW "T" SortOption.newest "" = .error "boom" ∧
    getVideosWithPagination bErr dVW "T" 1 12 SortOption.newest "" = .error "boom" ∧
    (initSchema sbAll).2 = .ok () ∧
    incrementViews bErr "v1" = .ok () :=
  ⟨((C4_error_propagation bErr dVW "T" SortOption.newest "" 1 12 "v1" sbAll).1 "boom").mpr rfl,
   ((C4_error_propagation bErr dVW "T" SortOption.newest "" 1 12 "v1" sbAll).2.1 "boom").mpr rfl,
   (C4_error_propagation bErr dVW "T" SortOption.newest "" 1 12 "v1" sbAll).2.2.1,
   (C4_error_propagation bErr dVW "T" SortOption.newest "" 1 12 "v1" sbAll).2.2.2.2.1⟩

theorem reconcileAttrs_nil_of_all_present (create : AttrSpec → Except String Unit)
    (existing : List String) :
    ∀ l : List AttrSpec, (∀ a ∈ l, a.key ∈ existing) → reconcileAttrs create existing l = [] := by
  intro l
  induction l with
  | nil => intro _; rfl
  | cons a rest ih =>
    intro h
    have ha : a.key ∈ existing := h a (List.mem_cons_self a rest)
    have hc : existing.contains a.key = true := by
      simpa using ha
    simp only [reconcileAttrs, hc, if_true]
    exact ih fun x hx => h x (List.mem_cons_of_mem a hx)

/-- C6: schema reconciliation is idempotent — for every backend state in
which every declared field key of a collection is already present in the
backend's reported attribute list, that collection's reconciliation issues
zero field-creation calls (and hence leaves existing fields unaltered: the
creation-call trace is the only mutation the reconciliation performs). -/
theorem C6_idempotent (sb : SchemaBackend) :
    (∀ existing, sb.getAttributes videoCollectionId = .ok existing →
      (∀ a ∈ videoRequiredAttributes, a.key ∈ existing) →
      (ensureVideoCollectionAttributes sb).1 = []) ∧
    (∀ existing, sb.getAttributes siteConfigCollectionId = .ok existing →
      (∀ a ∈ siteConfigRequiredAttributes, a.key ∈ existing) →
      (ensureSiteConfigCollectionAttributes sb).1 = []) ∧
    (∀ existing, sb.getAttributes userCollectionId = .ok existing →
      (∀ a ∈ userRequiredAttributes, a.key ∈ existing) →
      (ensureUserCollectionAttributes sb).1 = []) ∧
    (∀ existing, sb.getAttributes sessionCollectionId = .ok existing →
      (∀ a ∈ sessionRequiredAttributes, a.key ∈ existing) →
      (ensureSessionCollectionAttributes sb).1 = []) := by
  refine ⟨?_, ?_, ?_, ?_⟩ <;>
  · intro existing hex hall
    simp only [ensureVideoCollectionAttributes, ensureSiteConfigCollectionAttributes,
      ensureUserCollectionAttributes, ensureSessionCollectionAttributes,
      ensureCollectionAttributes, hex]
    exact reconcileAttrs_nil_of_all_present _ _ _ hall

theorem C6_witness : (ensureVideoCollectionAttributes sbAll).1 = [] :=
  (C6_idempotent sbAll).1 allDeclaredKeys rfl (by decide)

/-- C9: `getVideoFileUrl` resolves the playable asset's URL via the
dual-field lookup `video.video_id || video.videoFileId` on the fetched
record, and collapses all three failure cases — record missing, no file
reference populated, URL resolution failure — into a `null` result rather
than an error; it never rejects. -/
theorem C9_file_url (b : Backend) (now videoId : String) :
    (getVideo b now videoId = .ok none → getVideoFileUrl b now videoId = .ok none) ∧
    (∀ v, getVideo b now videoId = .ok (some v) →
      (jsFirstTruthyStr v.video_id v.videoFileId = none →
        getVideoFileUrl b now videoId = .ok none) ∧
      (∀ fid, jsFirstTruthyStr v.video_id v.videoFileId = some fid →
        (∀ e, b.getFileView videosBucketId fid = .error e →
          getVideoFileUrl b now videoId = .ok none) ∧
        (∀ url, b.getFileView videosBucketId fid = .ok url →
          getVideoFileUrl b now videoId = .ok (some url)))) ∧
    (∃ r, getVideoFileUrl b now videoId = .ok r) := by
  refine ⟨?_, ?_, ?_⟩
  · intro h
    simp [getVideoFileUrl, h]
  · intro v hv
    constructor
    · intro hj
      simp [getVideoFileUrl, hv, hj]
    · intro fid hj
      constructor
      · intro e he
        simp [getVideoFileUrl, hv, hj, he]
      · intro url hu
        simp [getVideoFileUrl, hv, hj, hu]
  · unfold getVideoFileUrl
    split
    · exact ⟨_, rfl⟩
    · exact ⟨_, rfl⟩
    · split
      · exact ⟨_, rfl⟩
      · split <;> exact ⟨_, rfl⟩

theorem C9_witness : getVideoFileUrl bNF "T" "v1" = .ok none :=
  (C9_file_url bNF "T" "v1").1 rfl

theorem jsCeilDiv_eq_ceil (n p : ℕ) (hp : 1 ≤ p) :
    ((jsCeilDiv n p : ℕ) : ℤ) = ⌈(n : ℚ) / (p : ℚ)⌉ := by
  have hp0 : (0:ℚ) < p := by exact_mod_cast hp
  obtain ⟨t, ht, hA, hB⟩ : ∃ t : ℕ, t = (n + p - 1) / p ∧ n ≤ t * p ∧ t * p < n + p := by
    refine ⟨_, rfl, ?_, ?_⟩ <;>
    · have hd := Nat.div_add_mod (n + p - 1) p
      have hm : (n + p - 1) % p < p := Nat.mod_lt _ (by omega)
      have h1 : ((n + p - 1) / p) * p ≤ n + p - 1 := Nat.div_mul_le_self _ _
      rw [Nat.mul_comm] at hd
      omega
  rw [jsCeilDiv, ← ht, eq_comm, Int.ceil_eq_iff]
  constructor
  · have hB' : (t:ℚ) * p < n + p := by exact_mod_cast hB
    push_cast
    rw [lt_div_iff₀ hp0, sub_mul, one_mul]
    linarith
  · have hA' : (n:ℚ) ≤ t * p := by exact_mod_cast hA
    push_cast
    rw [div_le_iff₀ hp0]
    linarith

/-- C5: for every catalog whose sorted/filtered list is `vids` and every
`page ≥ 1`, `perPage ≥ 1`, pagination returns
`totalPages = ⌈vids.length / perPage⌉` (the natural-number formula
`jsCeilDiv` agrees with the rational ceiling) together with exactly the
slice `[(page-1)*perPage, page*perPage)` of `vids`; an out-of-range page
yields the empty list and no error. -/
theorem C5_pagination (b : Backend) (dateVal : String → JNum) (now : String)
    (sortOption : SortOption) (searchQuery : String) (page perPage : ℕ)
    (hp : 1 ≤ page) (hpp : 1 ≤ perPage) (vids : List Video)
    (h : getAllVideos b dateVal now sortOption searchQuery = .ok vids) :
    getVideosWithPagination b dateVal now page perPage sortOption searchQuery =
      .ok ((vids.drop ((page - 1) * perPage)).take perPage, jsCeilDiv vids.length perPage) ∧
    ((jsCeilDiv vids.length perPage : ℕ) : ℤ) = ⌈(vids.length : ℚ) / (perPage : ℚ)⌉ ∧
    (vids.length ≤ (page - 1) * perPage →
      (vids.drop ((page - 1) * perPage)).take perPage = []) := by
  refine ⟨?_, jsCeilDiv_eq_ceil _ _ hpp, ?_⟩
  · simp [getVideosWithPagination, h]
  · intro hle
    rw [List.drop_eq_nil_of_le hle, List.take_nil]

theorem C5_witness :
    getVideosWithPagination bW dVW "T" 3 4 SortOption.price_asc "" =
      .ok ((vidsW.drop ((3 - 1) * 4)).take 4, jsCeilDiv vidsW.length 4) ∧
    jsCeilDiv vidsW.length 4 = 3 ∧
    (vidsW.drop ((3 - 1) * 4)).take 4 = (vidsW.drop 8).take 4 :=
  ⟨(C5_pagination bW dVW "T" SortOption.price_asc "" 3 4 (by decide) (by decide) vidsW
      (by with_unfolding_all rfl)).1,
   by with_unfolding_all rfl, rfl⟩

theorem getAllVideos_ok_eq (b : Backend) (dateVal : String → JNum) (now : String)
    (sortOption : SortOption) (searchQuery : String) (docs : List RawVideo)
    (hdocs : b.listDocuments = .ok docs) :
    getAllVideos b dateVal now sortOption searchQuery =
      .ok (sortVideos dateVal sortOption
        ((if searchQuery != "" && jsTrim searchQuery != "" then
            (docs.map (normalizeVideo now)).filter
              (fun v => matchesQuery (jsToLower (jsTrim searchQuery)) v)
          else docs.map (normalizeVideo now)).map (attachThumbnail b.getFileView))) := by
  unfold getAllVideos
  rw [hdocs]

theorem thumbOk_attach (b : Backend)
    (hhref : ∀ bu f u, b.getFileView bu f = .ok u → u ≠ "") (w : Video) :
    thumbOk b (attachThumbnail b.getFileView w) := by
  cases hj : jsFirstTruthyStr w.thumbnailFileId w.thumbnail_id with
  | none =>
    have he : attachThumbnail b.getFileView w =
        { w with thumbnailUrl := some placeholderThumbnailUrl } := by
      unfold attachThumbnail
      rw [hj]
    unfold thumbOk
    rw [he]
    refine ⟨⟨placeholderThumbnailUrl, rfl, by decide⟩, ?_⟩
    simp [hj]
  | some tid =>
    cases hg : b.getFileView thumbnailsBucketId tid with
    | ok url =>
      have he : attachThumbnail b.getFileView w = { w with thumbnailUrl := some url } := by
        unfold attachThumbnail
        simp only [hj, hg]
      unfold thumbOk
      rw [he]
      refine ⟨⟨url, rfl, hhref _ _ _ hg⟩, ?_⟩
      simp [hj, hg]
    | error e =>
      have he : attachThumbnail b.getFileView w =
          { w with thumbnailUrl := some placeholderThumbnailUrl } := by
        unfold attachThumbnail
        simp only [hj, hg]
      unfold thumbOk
      rw [he]
      refine ⟨⟨placeholderThumbnailUrl, rfl, by decide⟩, ?_⟩
      simp [hj, hg]

/-- C7: every `Video` returned by `getAllVideos` or `getVideo` carries a
non-empty `thumbnailUrl` (assuming the backend only reports non-empty
`href`s for resolved files): the resolved URL when a thumbnail reference is
present and resolution succeeds, and the fixed placeholder URL when the
reference is absent or resolution fails; thumbnail resolution never raises
to the caller. -/
theorem C7_thumbnails (b : Backend) (dateVal : String → JNum) (now : String)
    (sortOption : SortOption) (searchQuery videoId : String)
    (hhref : ∀ bu f u, b.getFileView bu f = .ok u → u ≠ "") :
    (∀ out, getAllVideos b dateVal now sortOption searchQuery = .ok out →
      ∀ v ∈ out, thumbOk b v) ∧
    (∀ v, getVideo b now videoId = .ok (some v) → thumbOk b v) := by
  constructor
  · intro out hout v hv
    cases hl : b.listDocuments with
    | error e =>
      rw [getAllVideos] at hout
      rw [hl] at hout
      exact absurd hout (by simp)
    | ok docs =>
      rw [getAllVideos_ok_eq b dateVal now sortOption searchQuery docs hl] at hout
      have hout' := (Except.ok.injEq _ _).mp hout
      subst hout'
      rw [sortVideos, List.mem_insertionSort] at hv
      obtain ⟨w, _, rfl⟩ := List.mem_map.mp hv
      exact thumbOk_attach b hhref w
  · intro v hv
    rw [getVideo] at hv
    cases hd : b.getDocument videoId with
    | error e =>
      rw [hd] at hv
      exact absurd hv (by simp)
    | ok doc =>
      rw [hd] at hv
      have hv' : attachThumbnail b.getFileView (normalizeVideo now doc) = v := by
        simpa using hv
      rw [← hv']
      exact thumbOk_attach b hhref (normalizeVideo now doc)

theorem C7_witness : thumbOk bOne vOne :=
  (C7_thumbnails bOne dVW "T" SortOption.newest "" "v1"
    (fun _ _ _ h => nomatch h)).2 vOne (by with_unfolding_all rfl)

/-- C8: with a query that is non-empty after trimming, `getAllVideos`
returns exactly (up to the sort's permutation) the normalized records whose
lower-cased title or description contains the trimmed lower-cased query as
a substring; an empty or whitespace-only query leaves the list
unfiltered. -/
theorem C8_search (b : Backend) (dateVal : String → JNum) (now : String)
    (sortOption : SortOption) (searchQuery : String) (docs : List RawVideo)
    (hdocs : b.listDocuments = .ok docs) (out : List Video)
    (hout : getAllVideos b dateVal now sortOption searchQuery = .ok out) :
    (jsTrim searchQuery ≠ "" →
      out.Perm (((docs.map (normalizeVideo now)).filter
        (fun v => matchesQuery (jsToLower (jsTrim searchQuery)) v)).map
          (attachThumbnail b.getFileView))) ∧
    (jsTrim searchQuery = "" →
      out.Perm ((docs.map (normalizeVideo now)).map (attachThumbnail b.getFileView))) := by
  rw [getAllVideos_ok_eq b dateVal now sortOption searchQuery docs hdocs] at hout
  have hout' := (Except.ok.injEq _ _).mp hout
  subst hout'
  constructor
  · intro hq
    have hq' : searchQuery ≠ "" := by
      intro h
      rw [h] at hq
      exact hq rfl
    have hc : (searchQuery != "" && jsTrim searchQuery != "") = true := by
      rw [Bool.and_eq_true, bne_iff_ne, bne_iff_ne]
      exact ⟨hq', hq⟩
    rw [if_pos hc]
    exact List.perm_insertionSort _ _
  · intro hq
    have hc : ¬ ((searchQuery != "" && jsTrim searchQuery != "") = true) := by
      intro h
      rw [Bool.and_eq_true, bne_iff_ne, bne_iff_ne] at h
      exact h.2 hq
    rw [if_neg hc]
    exact List.perm_insertionSort _ _

theorem C8_witness :
    outS.Perm ((([catDoc, dogDoc].map (normalizeVideo "T")).filter
      (fun v => matchesQuery (jsToLower (jsTrim "CAT")) v)).map
        (attachThumbnail bS.getFileView)) :=
  (C8_search bS dVW "T" SortOption.price_asc "CAT" [catDoc, dogDoc] rfl outS
    (by with_unfolding_all rfl)).1 (by decide)

theorem mk_append (l1 l2 : List Char) : String.mk l1 ++ String.mk l2 = String.mk (l1 ++ l2) :=
  rfl

theorem padStart2_repr : ∀ n : ℕ, n < 100 →
    padStart2 (Nat.repr n) = String.mk [dchar (n / 10), dchar (n % 10)] := by
  decide

theorem dchar_ne_colon : ∀ d : ℕ, d < 10 → dchar d ≠ ':' := by
  decide

theorem jsNumber_two_digits : ∀ n : ℕ, n < 100 →
    jsNumber (String.mk [dchar (n / 10), dchar (n % 10)]) = JNum.val (n : ℚ) := by
  decide

theorem colon_not_mem_digits (n : ℕ) (h : n < 100) :
    ':' ∉ [dchar (n / 10), dchar (n % 10)] := by
  intro hm
  rcases List.mem_cons.mp hm with h' | hm2
  · exact dchar_ne_colon (n / 10) (by omega) h'.symm
  · rcases List.mem_cons.mp hm2 with h' | hm3
    · exact dchar_ne_colon (n % 10) (by omega) h'.symm
    · exact absurd hm3 (List.not_mem_nil _)

theorem splitChAux_not_mem (sep : Char) (l : List Char) :
    ∀ acc, sep ∉ l → splitChAux sep l acc = [acc.reverse ++ l] := by
  induction l with
  | nil => intro acc _; simp [splitChAux]
  | cons c cs ih =>
    intro acc h
    have hc : ¬ (c = sep) := fun hh => h (by rw [hh]; exact List.mem_cons_self _ _)
    rw [splitChAux, if_neg hc, ih _ (fun hm => h (List.mem_cons_of_mem _ hm))]
    simp

theorem splitChAux_append (sep : Char) (l1 : List Char) :
    ∀ (l2 acc : List Char), sep ∉ l1 →
      splitChAux sep (l1 ++ sep :: l2) acc = (acc.reverse ++ l1) :: splitChAux sep l2 [] := by
  induction l1 with
  | nil =>
    intro l2 acc _
    simp [splitChAux]
  | cons c cs ih =>
    intro l2 acc h
    have hc : ¬ (c = sep) := fun hh => h (by rw [hh]; exact List.mem_cons_self _ _)
    rw [List.cons_append, splitChAux, if_neg hc,
      ih _ _ (fun hm => h (List.mem_cons_of_mem _ hm))]
    simp

theorem floorQ60 (n : ℕ) : ⌊(n : ℚ) / (60 : ℚ)⌋ = ((n / 60 : ℕ) : ℤ) := by
  have h : ((n : ℚ)) = (((n : ℤ)) : ℚ) := by push_cast; ring
  have h60 : ((60 : ℚ)) = (((60 : ℕ)) : ℚ) := by norm_num
  rw [h, h60, Rat.floor_intCast_div_natCast]
  omega

theorem floorDiv_natCast (n : ℕ) :
    (JNum.val (n : ℚ)).floorDiv 60 = JNum.val ((n / 60 : ℕ) : ℚ) := by
  show JNum.val ((⌊(n : ℚ) / (60 : ℚ)⌋ : ℤ) : ℚ) = JNum.val ((n / 60 : ℕ) : ℚ)
  rw [floorQ60]
  norm_cast

theorem jsRem_natCast (n : ℕ) :
    (JNum.val (n : ℚ)).jsRem 60 = JNum.val ((n % 60 : ℕ) : ℚ) := by
  show JNum.val ((n : ℚ) - 60 * ((ratTrunc ((n : ℚ) / 60) : ℤ) : ℚ)) =
    JNum.val ((n % 60 : ℕ) : ℚ)
  unfold ratTrunc
  have hnn : (0 : ℚ) ≤ (n : ℚ) / 60 := by positivity
  rw [if_pos hnn, floorQ60]
  congr 1
  rw [Int.cast_natCast]
  have hq : (n : ℚ) = 60 * ((n / 60 : ℕ) : ℚ) + ((n % 60 : ℕ) : ℚ) := by
    exact_mod_cast (by omega : n = 60 * (n / 60) + n % 60)
  linarith

theorem toJs_natCast (n : ℕ) : (JNum.val (n : ℚ)).toJsString = Nat.repr n := by
  show (if ((n : ℚ)).den = 1 then toString ((n : ℚ)).num
    else toString ((n : ℚ)).num ++ "/" ++ toString ((n : ℚ)).den) = Nat.repr n
  rw [if_pos (Rat.den_natCast n), Rat.num_natCast]
  rfl

theorem ltB_true_of (m : ℕ) (h : m < 60) : (JNum.val (m : ℚ)).ltB 60 = true := by
  unfold JNum.ltB
  simp only [decide_eq_true_eq]
  exact_mod_cast h

theorem ltB_false_of (m : ℕ) (h : ¬ m < 60) : (JNum.val (m : ℚ)).ltB 60 = false := by
  unfold JNum.ltB
  simp only [decide_eq_false_iff_not]
  exact_mod_cast h

theorem fmt_mmss (S : ℕ) (hdiv : S / 60 < 60) :
    formatDuration (JNum.val (S : ℚ)) =
      padStart2 (Nat.repr (S / 60)) ++ ":" ++ padStart2 (Nat.repr (S % 60)) := by
  simp only [formatDuration, floorDiv_natCast, jsRem_natCast, ltB_true_of _ hdiv, if_true,
    toJs_natCast]

theorem fmt_hhmmss (S : ℕ) (hdiv : ¬ S / 60 < 60) :
    formatDuration (JNum.val (S : ℚ)) =
      padStart2 (Nat.repr (S / 60 / 60)) ++ ":" ++ padStart2 (Nat.repr (S / 60 % 60)) ++ ":"
        ++ padStart2 (Nat.repr (S % 60)) := by
  simp only [formatDuration, floorDiv_natCast, jsRem_natCast, ltB_false_of _ hdiv,
    Bool.false_eq_true, if_false, toJs_natCast]

theorem fmt_string_two (a b : ℕ) (ha : a < 100) (hb : b < 100) :
    padStart2 (Nat.repr a) ++ ":" ++ padStart2 (Nat.repr b) =
      String.mk ([dchar (a / 10), dchar (a % 10)] ++ ':' ::
        [dchar (b / 10), dchar (b % 10)]) := by
  rw [padStart2_repr a ha, padStart2_repr b hb,
    show (":" : String) = String.mk [':'] from rfl, mk_append, mk_append]
  simp

theorem fmt_string_three (a b c : ℕ) (ha : a < 100) (hb : b < 100) (hc : c < 100) :
    padStart2 (Nat.repr a) ++ ":" ++ padStart2 (Nat.repr b) ++ ":" ++ padStart2 (Nat.repr c) =
      String.mk ([dchar (a / 10), dchar (a % 10)] ++ ':' ::
        ([dchar (b / 10), dchar (b % 10)] ++ ':' :: [dchar (c / 10), dchar (c % 10)])) := by
  rw [padStart2_repr a ha, padStart2_repr b hb, padStart2_repr c hc,
    show (":" : String) = String.mk [':'] from rfl, mk_append, mk_append, mk_append, mk_append]
  simp

theorem parse_two_digits (a b : ℕ) (ha : a < 100) (hb : b < 100) :
    getDurationInSeconds (String.mk ([dchar (a / 10), dchar (a % 10)] ++ ':' ::
        [dchar (b / 10), dchar (b % 10)])) =
      JNum.val ((a * 60 + b : ℕ) : ℚ) := by
  unfold getDurationInSeconds jsSplit
  rw [show (String.mk ([dchar (a / 10), dchar (a % 10)] ++ ':' ::
      [dchar (b / 10), dchar (b % 10)])).data =
      [dchar (a / 10), dchar (a % 10)] ++ ':' :: [dchar (b / 10), dchar (b % 10)] from rfl]
  rw [splitChAux_append ':' _ _ _ (colon_not_mem_digits a ha),
    splitChAux_not_mem ':' _ _ (colon_not_mem_digits b hb)]
  simp only [List.reverse_nil, List.nil_append, List.map]
  rw [jsNumber_two_digits a ha, jsNumber_two_digits b hb]
  show JNum.val ((a : ℚ) * 60 + (b : ℚ)) = JNum.val ((a * 60 + b : ℕ) : ℚ)
  congr 1
  push_cast
  ring

theorem parse_three_digits (a b c : ℕ) (ha : a < 100) (hb : b < 100) (hc : c < 100) :
    getDurationInSeconds (String.mk ([dchar (a / 10), dchar (a % 10)] ++ ':' ::
        ([dchar (b / 10), dchar (b % 10)] ++ ':' :: [dchar (c / 10), dchar (c % 10)]))) =
      JNum.val ((a * 3600 + b * 60 + c : ℕ) : ℚ) := by
  unfold getDurationInSeconds jsSplit
  rw [show (String.mk ([dchar (a / 10), dchar (a % 10)] ++ ':' ::
      ([dchar (b / 10), dchar (b % 10)] ++ ':' :: [dchar (c / 10), dchar (c % 10)]))).data =
      [dchar (a / 10), dchar (a % 10)] ++ ':' ::
        ([dchar (b / 10), dchar (b % 10)] ++ ':' :: [dchar (c / 10), dchar (c % 10)]) from rfl]
  rw [splitChAux_append ':' _ _ _ (colon_not_mem_digits a ha),
    splitChAux_append ':' _ _ _ (colon_not_mem_digits b hb),
    splitChAux_not_mem ':' _ _ (colon_not_mem_digits c hc)]
  simp only [List.reverse_nil, List.nil_append, List.map]
  rw [jsNumber_two_digits a ha, jsNumber_two_digits b hb, jsNumber_two_digits c hc]
  show JNum.val ((a : ℚ) * 3600 + (b : ℚ) * 60 + (c : ℚ)) =
    JNum.val ((a * 3600 + b * 60 + c : ℕ) : ℚ)
  congr 1
  push_cast
  ring

/-- C1: for every integer seconds value `S` with `0 ≤ S < 86400`, rendering
`S` through the duration formatter (MM:SS below 60 minutes, HH:MM:SS
otherwise, zero-padded) and parsing the result back with the sort
comparator's parser (2 parts as minutes:seconds, 3 parts as
hours:minutes:seconds) yields `S` again; and the formatter output is
exactly the `duration` string `normalizeVideo` stores for a record whose
raw duration is the number `S`. -/
theorem C1_duration_roundtrip (S : ℕ) (h : S < 86400) :
    getDurationInSeconds (formatDuration (JNum.val (S : ℚ))) = JNum.val (S : ℚ) ∧
    (∀ (r : RawVideo) (now : String), r.duration = .num (.val (S : ℚ)) →
      (normalizeVideo now r).duration = formatDuration (JNum.val (S : ℚ))) := by
  constructor
  · by_cases h36 : S / 60 < 60
    · rw [fmt_mmss S h36, fmt_string_two (S / 60) (S % 60) (by omega) (by omega),
        parse_two_digits (S / 60) (S % 60) (by omega) (by omega)]
      congr 1
      norm_cast
      omega
    · rw [fmt_hhmmss S h36,
        fmt_string_three (S / 60 / 60) (S / 60 % 60) (S % 60) (by omega) (by omega) (by omega),
        parse_three_digits (S / 60 / 60) (S / 60 % 60) (S % 60) (by omega) (by omega) (by omega)]
      congr 1
      norm_cast
      omega
  · intro r now hr
    by_cases hS : S = 0
    · subst hS
      have ht : (RawVideo.duration r).truthy = false := by
        rw [hr]; simp [JSValue.truthy, JNum.truthy]
      have hL : (normalizeVideo now r).duration = "00:00" := by
        simp [normalizeVideo, ht]
      rw [hL]
      with_unfolding_all decide
    · have ht2 : (JSValue.num (JNum.val (S : ℚ))).truthy = true := by
        simp only [JSValue.truthy, JNum.truthy, decide_eq_true_eq]
        exact_mod_cast hS
      simp [normalizeVideo, hr, ht2]

theorem C1_witness :
    (3725 : ℕ) < 86400 ∧
    getDurationInSeconds (formatDuration (JNum.val ((3725 : ℕ) : ℚ))) =
      JNum.val ((3725 : ℕ) : ℚ) :=
  ⟨by norm_num, (C1_duration_roundtrip 3725 (by norm_num)).1⟩
